import Mathlib

/-!
Verification development for the Audience Tracker application
(src/audience_tracker.py). We shallowly embed the core of the program:
the ingestion function `process_excel`, the diff function `get_changes`,
and the per-user session-state updates performed by `main_app` and
`update_user_data`. Pandas DataFrames are modelled as a list of column
labels plus positional rows of optional cells; a missing cell (pandas
NaN, for which `pd.notna` is false) is `none`. Python exceptions raised
and caught inside `process_excel` are modelled with `Except`.
-/

namespace AudienceTracker

/-- A non-null cell value: either a string or a number. Numbers are
modelled as rationals so that fractional Excel values are representable. -/
inductive Value where
  | str (s : String)
  | num (q : ℚ)
deriving DecidableEq, Repr

/-- A cell of the parsed DataFrame: `none` models pandas NaN
(a null/empty cell, for which `pd.notna` returns false). -/
abbrev Cell := Option Value

/-- One row of the DataFrame, positionally aligned with the column list. -/
abbrev Row := List Cell

/-- A parsed DataFrame as handed to `process_excel` by `pd.read_excel`:
column labels and rows of cells. -/
structure DataFrame where
  cols : List String
  rows : List Row
deriving DecidableEq, Repr

/-- The value stored for one audience by `process_excel`
(the dict literal at lines 107-111 of the source). -/
structure Record where
  audienceSize : Int
  creationDate : String
  refreshDate : String
deriving DecidableEq, Repr

/-- A Python dict from audience name to record, as an insertion-ordered
association list with unique keys (Python dict semantics). -/
abbrev Dict := List (String × Record)

/-- The distinct error outcomes of `process_excel` (each `return None`
branch is reported to the user with a distinct message): the name column
could not be resolved (reported with the list of columns found), the
extracted dict was empty, or an exception was raised while processing
(e.g. `int()` on a non-numeric string). -/
inductive IngestError where
  | unresolvableSchema (colsFound : List String)
  | emptyResult
  | parseFailure (cause : String)
deriving DecidableEq, Repr

/-- Truncation of a rational toward zero, the behaviour of Python's
`int()` on a float: `int(3.9) = 3`, `int(-3.9) = -3`. -/
def ratTrunc (q : ℚ) : Int := q.num.tdiv q.den

/-- Drop whitespace from both ends of a character list. -/
def trimChars (l : List Char) : List Char :=
  ((l.dropWhile Char.isWhitespace).reverse.dropWhile Char.isWhitespace).reverse

/-- Whitespace stripping of a string (pandas `.str.strip()`,
Python `str.strip()`). -/
def strTrim (s : String) : String := String.mk (trimChars s.data)

/-- Python `str.lower()`. -/
def strLower (s : String) : String := String.mk (s.data.map Char.toLower)

/-- The numeric value of a list of decimal digits. -/
def digitsToNat (l : List Char) : Nat :=
  l.foldl (fun n c => n * 10 + (c.toNat - 48)) 0

/-- Parse a nonempty all-digit character list, otherwise fail. -/
def parseDigits (l : List Char) : Option Nat :=
  if !l.isEmpty && l.all Char.isDigit then some (digitsToNat l) else none

/-- Python `int(s)` on a string: optional surrounding whitespace and an
optional sign followed by digits; anything else raises `ValueError`. -/
def parseIntStr (s : String) : Option Int :=
  match trimChars s.data with
  | '-' :: rest => (parseDigits rest).map (fun n => -(n : Int))
  | '+' :: rest => (parseDigits rest).map (fun n => (n : Int))
  | l => (parseDigits l).map (fun n => (n : Int))

/-- Python `int(v)` on a cell value: truncates a number toward zero,
parses an integer-literal string, and raises (here: `parseFailure`)
on any other string. -/
def pyInt : Value → Except IngestError Int
  | .num q => .ok (ratTrunc q)
  | .str s =>
      match parseIntStr s with
      | some n => .ok n
      | none => .error (.parseFailure s)

/-- Python `str(v)` on a cell value. The rendering of a numeric value is
a stand-in for Python's numeric repr; no claim depends on its exact text. -/
def pyStr : Value → String
  | .str s => s
  | .num q => toString q

/-- Check whether `pat` occurs as a contiguous run inside `hay`. -/
def subListCheck (pat : List Char) : List Char → Bool
  | [] => pat.isEmpty
  | c :: rest => pat.isPrefixOf (c :: rest) || subListCheck pat rest

/-- Substring test: Python's `pat in hay`. -/
def containsSub (hay pat : String) : Bool :=
  subListCheck pat.data hay.data

/-- The semantic column roles resolved by the header-matching loop
(lines 81-91): the Python dict `col_mapping`. -/
structure ColMap where
  name : Option String := none
  size : Option String := none
  creation : Option String := none
  refresh : Option String := none
deriving DecidableEq, Repr

/-- One iteration of the header-matching loop (lines 82-91): the
if/elif chain assigning a column to at most one role; a later column
matching the same role overwrites the earlier assignment. -/
def matchCol (cm : ColMap) (col : String) : ColMap :=
  let l := strLower col
  if containsSub l "audience name" || l == "name" then
    { cm with name := some col }
  else if containsSub l "audience size" || l == "size" then
    { cm with size := some col }
  else if containsSub l "creation date" || containsSub l "created" then
    { cm with creation := some col }
  else if containsSub l "refresh date" || containsSub l "refreshed" then
    { cm with refresh := some col }
  else cm

/-- The whole header-matching loop over the (already stripped) columns. -/
def buildColMap (cols : List String) : ColMap :=
  cols.foldl matchCol {}

/-- Pandas `row.get(label, default)`: the cell under the first column
with that label, or the default when no column has the label. -/
def rowGet (cols : List String) (r : Row) (label : String) (dflt : Cell) : Cell :=
  match cols.findIdx? (fun c => c == label) with
  | some i => r.getD i none
  | none => dflt

/-- Python dict assignment `d[k] = v`: overwrites the value of an
existing key in place, otherwise appends the new binding at the end. -/
def dictInsert (d : Dict) (k : String) (v : Record) : Dict :=
  if d.any (fun p => p.1 == k) then
    d.map (fun p => if p.1 == k then (k, v) else p)
  else d ++ [(k, v)]

/-- Python dict lookup `d.get(k)`. -/
def dictLookup (d : Dict) (k : String) : Option Record :=
  (d.find? (fun p => p.1 == k)).map (fun p => p.2)

/-- The key set of a dict. -/
def dictKeys (d : Dict) : Finset String :=
  (d.map Prod.fst).toFinset

/-- The size stored for a row (line 108): `0` when the cell is NaN
(`pd.notna` false), otherwise `int(value)`, which can raise. -/
def coerceSize : Cell → Except IngestError Int
  | none => .ok 0
  | some v => pyInt v

/-- A date string stored for a row (lines 109-110): empty when the cell
is NaN, otherwise `str(value)`. -/
def coerceDate : Cell → String
  | none => ""
  | some v => pyStr v

/-- What one loop iteration (lines 103-111) contributes for a row:
`none` when the row is skipped because its name cell is NaN,
otherwise the key (`str` of the name) with the record built from the
size and date cells; an exception from `int()` aborts processing.
`row.get(col_mapping.get(role, ''), default)` is modelled by looking the
role's column up in the stripped column list with the Python default. -/
def rowAction (cols : List String) (cm : ColMap) (nameCol : String) (r : Row) :
    Except IngestError (Option (String × Record)) :=
  match rowGet cols r nameCol none with
  | none => .ok none
  | some nv =>
      match coerceSize (rowGet cols r (cm.size.getD "") (some (.num 0))) with
      | .error e => .error e
      | .ok sz =>
          .ok (some (pyStr nv,
            { audienceSize := sz
              creationDate := coerceDate (rowGet cols r (cm.creation.getD "") (some (.str "")))
              refreshDate := coerceDate (rowGet cols r (cm.refresh.getD "") (some (.str ""))) }))

/-- The row loop (lines 103-111) threaded through the accumulating dict. -/
def foldRows (cols : List String) (cm : ColMap) (nameCol : String) :
    List Row → Dict → Except IngestError Dict
  | [], d => .ok d
  | r :: rs, d =>
      match rowAction cols cm nameCol r with
      | .error e => .error e
      | .ok none => foldRows cols cm nameCol rs d
      | .ok (some (k, v)) => foldRows cols cm nameCol rs (dictInsert d k v)

/-- The core of `process_excel` (lines 62-130): strip the column labels,
resolve the column roles, fail with the list of columns when no name
column resolves, build the dict row by row (an exception is caught by
the surrounding `try` and yields an error result), and fail with
`emptyResult` when the dict came out empty. -/
def processExcel (df : DataFrame) : Except IngestError Dict :=
  let cols := df.cols.map strTrim
  let cm := buildColMap cols
  match cm.name with
  | none => .error (.unresolvableSchema cols)
  | some nameCol =>
      match foldRows cols cm nameCol df.rows [] with
      | .error e => .error e
      | .ok d => if d.isEmpty then .error .emptyResult else .ok d

/-- What a row contributes when no exception occurs: `none` for a
skipped row, otherwise the key/record pair. -/
def rowKV (cols : List String) (cm : ColMap) (nameCol : String) (r : Row) :
    Option (String × Record) :=
  (rowAction cols cm nameCol r).toOption.join

/-- The record stored for key `k` after all rows are processed: the
contribution of the last row whose key is `k` (later rows win). -/
def lastKV (cols : List String) (cm : ColMap) (nameCol : String) :
    List Row → String → Option Record
  | [], _ => none
  | r :: rs, k =>
      match lastKV cols cm nameCol rs k with
      | some v => some v
      | none =>
          match rowKV cols cm nameCol r with
          | some (k2, v) => if k2 == k then some v else none
          | none => none

/-- One entry of `upload_history` (lines 196-200): the snapshot, the
upload timestamp (modelled as a natural number), and the audience count. -/
structure Entry where
  data : Dict
  timestamp : Nat
  count : Nat
deriving DecidableEq, Repr

/-- The function `get_changes` (lines 132-146): with fewer than two
uploads both results are empty; otherwise the key sets of the last two
snapshots (`history[-2]`, `history[-1]`) are set-subtracted both ways.
The source materialises each set as a list in unspecified order; we
return the sets themselves. -/
def getChanges (h : List Entry) : Finset String × Finset String :=
  if h.length < 2 then (∅, ∅)
  else
    let previousDict := ((h[h.length - 2]?).map Entry.data).getD []
    let currentDict := ((h[h.length - 1]?).map Entry.data).getD []
    (dictKeys currentDict \ dictKeys previousDict,
     dictKeys previousDict \ dictKeys currentDict)

/-- One user's session data (line 27): `upload_history` and
`audience_dict`. -/
structure UserState where
  uploadHistory : List Entry
  audienceDict : Dict
deriving DecidableEq, Repr

/-- The initial per-user data (line 27): empty history, empty dict. -/
def initUser : UserState := { uploadHistory := [], audienceDict := [] }

/-- The upload branch of `main_app` (lines 188-206): when
`process_excel` returns a truthy (nonempty) dict it is appended to the
history with the current timestamp and becomes the audience dict;
when `process_excel` returns an error result nothing changes. -/
def stepUpload (s : UserState) (df : DataFrame) (t : Nat) : UserState :=
  match processExcel df with
  | .error _ => s
  | .ok d =>
      if d.isEmpty then s
      else
        { uploadHistory :=
            s.uploadHistory ++ [{ data := d, timestamp := t, count := d.length }]
          audienceDict := d }

/-- The Load This Upload button (lines 272-274): sets the audience dict
to the chosen history entry's snapshot; the history itself is passed
through unchanged. A button exists only for indices inside the history. -/
def stepLoad (s : UserState) (i : Nat) : UserState :=
  match s.uploadHistory[i]? with
  | some e => { s with audienceDict := e.data }
  | none => s

/-- A state-changing operation a user can perform in `main_app`. -/
inductive Op where
  | upload (df : DataFrame) (t : Nat)
  | load (i : Nat)
deriving Repr

/-- Whether an operation is a Load This Upload click. -/
def Op.isLoad : Op → Bool
  | .upload _ _ => false
  | .load _ => true

/-- Apply one operation to a user's session state. -/
def stepOp (s : UserState) : Op → UserState
  | .upload df t => stepUpload s df t
  | .load i => stepLoad s i

/-- Run a sequence of operations from a starting state. -/
def runOps (s : UserState) (ops : List Op) : UserState :=
  ops.foldl stepOp s

/-- The display invariant of the spec: the audience dict equals the most
recently appended history entry's snapshot (empty when there is none). -/
def dispInv (s : UserState) : Prop :=
  s.audienceDict = (s.uploadHistory.getLast?).elim [] Entry.data

/-- The global per-user store `st.session_state.user_data` (line 27),
as a map from username to that user's data. -/
abbrev GlobalState := String → UserState

/-- The function `get_user_data` (lines 29-31). -/
def getUserData (g : GlobalState) (u : String) : UserState := g u

/-- The function `update_user_data` (lines 33-36): overwrites the
current user's history and dict, touching no other key of the store. -/
def updateUserData (g : GlobalState) (u : String) (h : List Entry) (d : Dict) :
    GlobalState :=
  fun x =>
    if x = u then { uploadHistory := h, audienceDict := d } else g x

/-- One `main_app` operation performed in the session of user `u`
against the global store: read that user's data, apply the session
step, and write the result back under the same key (a failed upload
writes the unchanged data back, which is the identity on the store). -/
def applyAsUser (g : GlobalState) (u : String) (op : Op) : GlobalState :=
  let s := stepOp (getUserData g u) op
  updateUserData g u s.uploadHistory s.audienceDict

/-- The name-role condition of the header matcher (line 84): the header,
lowercased, contains "audience name" as a substring or equals "name". -/
def namePat (c : String) : Bool :=
  containsSub (strLower c) "audience name" || strLower c == "name"

/-! Concrete example inputs used to exercise the theorems. -/

/-- A parsed upload with padded headers, one duplicate name and one
row whose name cell is empty. -/
def exDfDup : DataFrame :=
  { cols := [" Audience Name ", "Audience Size", "Audience Creation Date",
      "Audience Refresh Date"]
    rows := [ [some (.str "A"), some (.num 10), some (.str "2024-01-01"), none]
            , [some (.str "Dup"), some (.num 1), none, none]
            , [none, some (.num 99), none, none]
            , [some (.str "Dup"), some (.num 2), none, none] ] }

/-- The dict `process_excel` extracts from `exDfDup`. -/
def exDupDict : Dict :=
  [("A", { audienceSize := 10, creationDate := "2024-01-01", refreshDate := "" }),
   ("Dup", { audienceSize := 2, creationDate := "", refreshDate := "" })]

/-- A parsed upload whose size cell holds a non-numeric string. -/
def exDfBadSize : DataFrame :=
  { cols := ["Name", "Size"], rows := [ [some (.str "A"), some (.str "abc")] ] }

/-- A parsed upload with no name-like column. -/
def exDfNoName : DataFrame :=
  { cols := ["Foo", "Size"], rows := [ [some (.str "A"), some (.num 1)] ] }

/-- A parsed upload in which every name cell is empty. -/
def exDfAllEmpty : DataFrame :=
  { cols := ["Name", "Size"], rows := [ [none, some (.str "abc")], [none, none] ] }

/-- A one-row upload named A. -/
def exDfA : DataFrame :=
  { cols := ["Name"], rows := [ [some (.str "A")] ] }

/-- A one-row upload named B. -/
def exDfB : DataFrame :=
  { cols := ["Name"], rows := [ [some (.str "B")] ] }

/-- A history entry whose snapshot has keys A and B. -/
def entryAB : Entry :=
  { data := [("A", { audienceSize := 1, creationDate := "", refreshDate := "" }),
             ("B", { audienceSize := 2, creationDate := "", refreshDate := "" })]
    timestamp := 0
    count := 2 }

/-- A history entry whose snapshot has keys B and C. -/
def entryBC : Entry :=
  { data := [("B", { audienceSize := 2, creationDate := "", refreshDate := "" }),
             ("C", { audienceSize := 3, creationDate := "", refreshDate := "" })]
    timestamp := 1
    count := 2 }

/-- A user state with one prior upload. -/
def exUserState : UserState :=
  { uploadHistory := [entryAB], audienceDict := entryAB.data }

/-- A global store in which every user starts fresh. -/
def exGlobal : GlobalState := fun _ => initUser

/-- A row whose size cell holds the fractional number 3.9. -/
def exRowFrac : Row := [some (.str "A"), some (.num (mkRat 39 10))]

/-- A row whose size cell holds the negative number -5. -/
def exRowNeg : Row := [some (.str "B"), some (.num (mkRat (-5) 1))]

/-! Helper lemmas about the dict operations. -/

theorem dictKeys_dictInsert (d : Dict) (k : String) (v : Record) :
    dictKeys (dictInsert d k v) = insert k (dictKeys d) := by
  unfold dictInsert
  split
  · next hany =>
    have hmap : (d.map (fun p => if p.1 == k then (k, v) else p)).map Prod.fst
        = d.map Prod.fst := by
      rw [List.map_map]
      apply List.map_congr_left
      intro p _
      by_cases h : p.1 = k
      · simp [h]
      · simp [h]
    have hk : k ∈ dictKeys d := by
      rcases List.any_eq_true.mp hany with ⟨p, hp, hbeq⟩
      have : p.1 = k := by simpa using hbeq
      subst this
      exact List.mem_toFinset.mpr (List.mem_map.mpr ⟨p, hp, rfl⟩)
    rw [dictKeys, hmap]
    exact (Finset.insert_eq_self.mpr hk).symm
  · next hany =>
    rw [dictKeys, List.map_append, List.toFinset_append]
    simp [dictKeys, Finset.insert_eq, Finset.union_comm]

theorem dictLookup_dictInsert (d : Dict) (k : String) (v : Record) (x : String) :
    dictLookup (dictInsert d k v) x = if k = x then some v else dictLookup d x := by
  unfold dictLookup dictInsert
  split
  · next hany =>
    rw [List.find?_map]
    by_cases hkx : k = x
    · subst hkx
      have hpred : ((fun p => p.1 == k) ∘ fun p : String × Record =>
          if p.1 == k then (k, v) else p) = fun p => p.1 == k := by
        funext p
        by_cases h : p.1 = k
        · simp [h]
        · simp [h]
      rw [hpred]
      have hsome : (d.find? (fun p => p.1 == k)).isSome := by
        rw [List.find?_isSome]
        rcases List.any_eq_true.mp hany with ⟨p, hp, hbeq⟩
        exact ⟨p, hp, hbeq⟩
      rcases Option.isSome_iff_exists.mp hsome with ⟨p, hp⟩
      have hpk : p.1 = k := by simpa using List.find?_some hp
      simp [hp, hpk]
    · have hpred : ((fun p => p.1 == x) ∘ fun p : String × Record =>
          if p.1 == k then (k, v) else p) = fun p => p.1 == x := by
        funext p
        by_cases h : p.1 = k
        · simp [h, hkx]
        · simp [h]
      rw [hpred]
      cases hfind : d.find? (fun p => p.1 == x) with
      | none => simp [hkx, hfind]
      | some p =>
          have hpx : p.1 = x := by simpa using List.find?_some hfind
          have hpk : p.1 ≠ k := by rw [hpx]; exact fun h => hkx h.symm
          simp [hkx, hfind, hpk]
  · next hany =>
    rw [List.find?_append]
    by_cases hkx : k = x
    · subst hkx
      have hany2 : ∀ w : Record, (k, w) ∉ d := by simpa using hany
      have hnone : d.find? (fun p => p.1 == k) = none := by
        rw [List.find?_eq_none]
        intro p hp
        simp only [beq_iff_eq]
        intro hpk
        exact hany2 p.2 (by rw [← hpk, Prod.mk.eta]; exact hp)
      simp [hnone]
    · cases hfind : d.find? (fun p => p.1 == x) with
      | none => simp [hfind, hkx, Ne.symm hkx]
      | some p => simp [hfind, hkx]

/-! Helper lemmas about row processing. -/

theorem rowAction_name_none {cols : List String} {cm : ColMap} {nameCol : String}
    {r : Row} (h : rowGet cols r nameCol none = none) :
    rowAction cols cm nameCol r = .ok none := by
  unfold rowAction
  rw [h]

theorem rowAction_ok_none {cols : List String} {cm : ColMap} {nameCol : String}
    {r : Row} (h : rowAction cols cm nameCol r = .ok none) :
    rowGet cols r nameCol none = none := by
  unfold rowAction at h
  cases hg : rowGet cols r nameCol none with
  | none => rfl
  | some nv =>
      rw [hg] at h
      cases hs : coerceSize (rowGet cols r (cm.size.getD "") (some (.num 0))) with
      | error e => rw [hs] at h; exact absurd h (by simp)
      | ok sz => rw [hs] at h; exact absurd h (by simp)

theorem rowAction_ok_some {cols : List String} {cm : ColMap} {nameCol : String}
    {r : Row} {k : String} {v : Record}
    (h : rowAction cols cm nameCol r = .ok (some (k, v))) :
    ∃ nv, rowGet cols r nameCol none = some nv ∧ k = pyStr nv := by
  unfold rowAction at h
  cases hg : rowGet cols r nameCol none with
  | none => rw [hg] at h; exact absurd h (by simp)
  | some nv =>
      rw [hg] at h
      cases hs : coerceSize (rowGet cols r (cm.size.getD "") (some (.num 0))) with
      | error e => rw [hs] at h; exact absurd h (by simp)
      | ok sz =>
          rw [hs] at h
          simp only [Except.ok.injEq, Option.some.injEq, Prod.mk.injEq] at h
          exact ⟨nv, rfl, h.1.symm⟩

theorem rowKV_eq_of_rowAction {cols : List String} {cm : ColMap} {nameCol : String}
    {r : Row} {o : Option (String × Record)}
    (h : rowAction cols cm nameCol r = .ok o) :
    rowKV cols cm nameCol r = o := by
  unfold rowKV
  rw [h]
  rfl

theorem foldRows_ok_keys (cols : List String) (cm : ColMap) (nameCol : String)
    (rs : List Row) :
    ∀ d d', foldRows cols cm nameCol rs d = .ok d' →
      dictKeys d' = dictKeys d ∪
        (rs.filterMap (fun r => (rowGet cols r nameCol none).map pyStr)).toFinset := by
  induction rs with
  | nil =>
      intro d d' h
      unfold foldRows at h
      injection h with h
      subst h
      simp
  | cons r rs ih =>
      intro d d' h
      unfold foldRows at h
      cases ha : rowAction cols cm nameCol r with
      | error e => rw [ha] at h; exact absurd h (by simp)
      | ok o =>
          rw [ha] at h
          cases o with
          | none =>
              have hg := rowAction_ok_none ha
              rw [ih d d' h, List.filterMap_cons, hg]
              rfl
          | some kv =>
              obtain ⟨k, v⟩ := kv
              obtain ⟨nv, hg, hk⟩ := rowAction_ok_some ha
              rw [ih (dictInsert d k v) d' h, dictKeys_dictInsert,
                List.filterMap_cons, hg]
              subst hk
              simp [Finset.insert_union, Finset.union_insert]

theorem lastKV_cons (cols : List String) (cm : ColMap) (nameCol : String)
    (r : Row) (rs : List Row) (k : String) :
    lastKV cols cm nameCol (r :: rs) k =
      match lastKV cols cm nameCol rs k with
      | some v => some v
      | none =>
          match rowKV cols cm nameCol r with
          | some (k2, v) => if k2 == k then some v else none
          | none => none := rfl

theorem foldRows_ok_lookup (cols : List String) (cm : ColMap) (nameCol : String)
    (rs : List Row) :
    ∀ d d', foldRows cols cm nameCol rs d = .ok d' →
      ∀ k, dictLookup d' k =
        match lastKV cols cm nameCol rs k with
        | some v => some v
        | none => dictLookup d k := by
  induction rs with
  | nil =>
      intro d d' h k
      unfold foldRows at h
      injection h with h
      subst h
      rfl
  | cons r rs ih =>
      intro d d' h k
      unfold foldRows at h
      cases ha : rowAction cols cm nameCol r with
      | error e => rw [ha] at h; exact absurd h (by simp)
      | ok o =>
          rw [ha] at h
          have hkv := rowKV_eq_of_rowAction ha
          cases o with
          | none =>
              rw [ih d d' h k, lastKV_cons, hkv]
              cases lastKV cols cm nameCol rs k <;> rfl
          | some kv =>
              obtain ⟨k2, v⟩ := kv
              rw [ih (dictInsert d k2 v) d' h k, lastKV_cons, hkv]
              cases lastKV cols cm nameCol rs k with
              | some w => rfl
              | none =>
                  show dictLookup (dictInsert d k2 v) k = _
                  rw [dictLookup_dictInsert]
                  by_cases hk2 : k2 = k
                  · simp [hk2]
                  · simp [hk2]

theorem foldRows_all_skipped (cols : List String) (cm : ColMap) (nameCol : String)
    (rs : List Row) (h : ∀ r ∈ rs, rowGet cols r nameCol none = none) :
    ∀ d, foldRows cols cm nameCol rs d = .ok d := by
  induction rs with
  | nil => intro d; rfl
  | cons r rs ih =>
      intro d
      unfold foldRows
      rw [rowAction_name_none (h r (by simp))]
      exact ih (fun x hx => h x (by simp [hx])) d

/-! Helper lemmas about column-role resolution. -/

theorem matchCol_name (cm : ColMap) (c : String) :
    (matchCol cm c).name = if namePat c then some c else cm.name := by
  unfold matchCol namePat
  by_cases h : (containsSub (strLower c) "audience name" || strLower c == "name") = true
  · simp [h]
  · simp only [h, if_false, Bool.false_eq_true]
    split_ifs <;> rfl

theorem foldl_matchCol_name (cols : List String) :
    ∀ cm : ColMap, (∀ c ∈ cols, namePat c = false) → cm.name = none →
      (cols.foldl matchCol cm).name = none := by
  induction cols with
  | nil => intro cm _ hcm; exact hcm
  | cons c cols ih =>
      intro cm h hcm
      rw [List.foldl_cons]
      refine ih _ (fun x hx => h x (List.mem_cons_of_mem _ hx)) ?_
      rw [matchCol_name, h c (List.mem_cons_self _ _)]
      simpa using hcm

theorem buildColMap_name_none (cols : List String)
    (h : ∀ c ∈ cols, namePat c = false) :
    (buildColMap cols).name = none :=
  foldl_matchCol_name cols {} h rfl

/-- Inversion of a successful `process_excel` run: the name column
resolved and the row loop produced the returned dict. -/
theorem processExcel_ok_inv {df : DataFrame} {d : Dict}
    (h : processExcel df = .ok d) :
    ∃ nameCol, (buildColMap (df.cols.map strTrim)).name = some nameCol ∧
      foldRows (df.cols.map strTrim) (buildColMap (df.cols.map strTrim))
        nameCol df.rows [] = .ok d := by
  simp only [processExcel] at h
  cases hn : (buildColMap (df.cols.map strTrim)).name with
  | none => simp [hn] at h
  | some nc =>
      simp only [hn] at h
      cases hf : foldRows (df.cols.map strTrim) (buildColMap (df.cols.map strTrim))
          nc df.rows [] with
      | error e => simp [hf] at h
      | ok d0 =>
          simp only [hf] at h
          by_cases he : d0.isEmpty
          · simp [he] at h
          · simp only [he, if_false, Bool.false_eq_true, Except.ok.injEq] at h
            subst h
            exact ⟨nc, rfl, hf⟩

/-! Helper lemmas about the history diff. -/

theorem getChanges_short (h : List Entry) (hlen : h.length < 2) :
    getChanges h = (∅, ∅) := by
  simp [getChanges, hlen]

theorem getChanges_concat2 (pre : List Entry) (e1 e2 : Entry) :
    getChanges (pre ++ [e1, e2]) =
      (dictKeys e2.data \ dictKeys e1.data,
       dictKeys e1.data \ dictKeys e2.data) := by
  have hlen2 : (pre ++ [e1, e2]).length = pre.length + 2 := by simp
  have hlen : ¬ (pre ++ [e1, e2]).length < 2 := by omega
  have h2 : (pre ++ [e1, e2])[(pre ++ [e1, e2]).length - 2]? = some e1 := by
    rw [hlen2, Nat.add_sub_cancel, List.getElem?_append_right (Nat.le_refl _)]
    simp
  have h1 : (pre ++ [e1, e2])[(pre ++ [e1, e2]).length - 1]? = some e2 := by
    rw [hlen2]
    have hi : pre.length + 2 - 1 = pre.length + 1 := by omega
    rw [hi, List.getElem?_append_right (by omega)]
    have hj : pre.length + 1 - pre.length = 1 := by omega
    rw [hj]
    rfl
  simp only [getChanges, if_neg hlen, h1, h2, Option.map_some', Option.getD_some]

/-! Helper lemmas about the session state machine. -/

theorem stepUpload_dispInv (s : UserState) (df : DataFrame) (t : Nat)
    (hs : dispInv s) : dispInv (stepUpload s df t) := by
  unfold stepUpload
  cases processExcel df with
  | error e => exact hs
  | ok d =>
      by_cases he : d.isEmpty
      · simpa [he] using hs
      · simp [dispInv, he, List.getLast?_concat]

theorem runOps_uploads_dispInv (ops : List Op) :
    ∀ s : UserState, (∀ op ∈ ops, op.isLoad = false) → dispInv s →
      dispInv (runOps s ops) := by
  induction ops with
  | nil => intro s _ hs; exact hs
  | cons op ops ih =>
      intro s h hs
      show dispInv ((op :: ops).foldl stepOp s)
      rw [List.foldl_cons]
      cases op with
      | upload df t =>
          exact ih _ (fun x hx => h x (List.mem_cons_of_mem _ hx))
            (stepUpload_dispInv s df t hs)
      | load i => exact absurd (h _ (List.mem_cons_self _ _)) (by simp [Op.isLoad])

/-! The claims. -/

/-- Claim C1: for every tabular input in which the name column resolves and on
which `process_excel` returns a mapping, the mapping's key set equals the
set of the (stringified) name values present in the input — rows whose
name cell is null are skipped — and the record stored under each key is
the one contributed by the last row bearing that name (`lastKV` walks the
rows and keeps the later row's key/record contribution). -/
theorem processExcel_keys_lastWins (df : DataFrame) (d : Dict) (nameCol : String)
    (hname : (buildColMap (df.cols.map strTrim)).name = some nameCol)
    (hok : processExcel df = .ok d) :
    dictKeys d =
      (df.rows.filterMap
        (fun r => (rowGet (df.cols.map strTrim) r nameCol none).map pyStr)).toFinset ∧
    ∀ k, dictLookup d k =
      lastKV (df.cols.map strTrim) (buildColMap (df.cols.map strTrim))
        nameCol df.rows k := by
  obtain ⟨nc, hn, hf⟩ := processExcel_ok_inv hok
  have hnc : nc = nameCol := by
    rw [hn] at hname
    injection hname
  rw [hnc] at hf
  constructor
  · have hk := foldRows_ok_keys _ _ _ df.rows [] d hf
    simpa [dictKeys] using hk
  · intro k
    rw [foldRows_ok_lookup _ _ _ df.rows [] d hf k]
    cases hl : lastKV (df.cols.map strTrim) (buildColMap (df.cols.map strTrim))
        nameCol df.rows k <;> simp [hl, dictLookup]

/-- Witness for C1 on `exDfDup`: the key set is exactly A and Dup (the
null-name row is skipped) and Dup holds the second duplicate row's
record. -/
theorem processExcel_keys_lastWins_witness :
    dictKeys exDupDict = ({"A", "Dup"} : Finset String) ∧
    dictLookup exDupDict "Dup" =
      some { audienceSize := 2, creationDate := "", refreshDate := "" } := by
  have h := processExcel_keys_lastWins exDfDup exDupDict "Audience Name"
    (by decide) rfl
  refine ⟨?_, ?_⟩
  · rw [h.1]; decide
  · rw [h.2 "Dup"]; decide

/-- Claim C2: `get_changes` returns two empty collections on a history of
fewer than two entries; on a longer history it returns the key set of
the last snapshot minus the key set of the second-to-last one and vice
versa, and no name is in both results. -/
theorem getChanges_spec (h : List Entry) :
    (h.length < 2 → getChanges h = (∅, ∅)) ∧
    (∀ pre e1 e2, h = pre ++ [e1, e2] →
      getChanges h =
        (dictKeys e2.data \ dictKeys e1.data,
         dictKeys e1.data \ dictKeys e2.data)) ∧
    (∀ x, x ∈ (getChanges h).1 → x ∉ (getChanges h).2) := by
  refine ⟨getChanges_short h, ?_, ?_⟩
  · rintro pre e1 e2 rfl
    exact getChanges_concat2 pre e1 e2
  · intro x hx
    by_cases hlen : h.length < 2
    · rw [getChanges_short h hlen] at hx
      simp at hx
    · simp only [getChanges, if_neg hlen] at hx ⊢
      simp only [Finset.mem_sdiff] at hx ⊢
      tauto

/-- Witness for C2: the empty history diffs to two empty sets; with
prev holding A and B and curr holding B and C, added is the singleton C
and removed the singleton A, and C is not in both. -/
theorem getChanges_spec_witness :
    getChanges ([] : List Entry) = (∅, ∅) ∧
    getChanges [entryAB, entryBC] = ({"C"}, {"A"}) ∧
    "C" ∉ (getChanges [entryAB, entryBC]).2 := by
  refine ⟨(getChanges_spec []).1 (by decide), ?_, ?_⟩
  · rw [(getChanges_spec [entryAB, entryBC]).2.1 [] entryAB entryBC rfl]
    decide
  · exact (getChanges_spec [entryAB, entryBC]).2.2 "C" (by
      rw [(getChanges_spec [entryAB, entryBC]).2.1 [] entryAB entryBC rfl]
      decide)

/-- Counterexample to claim C3: a row whose name is present but whose size cell
holds the non-numeric string "abc" does not get size 0 — `int("abc")`
raises, the blanket `except` catches it, and the whole upload becomes an
error result instead of a mapping. -/
theorem processExcel_nonNumericSize_error :
    processExcel exDfBadSize = .error (.parseFailure "abc") := rfl

/-- Claim C3 as amended: for a row with a non-null name, the size is stored as 0
when the size cell is null or the size column missing; a non-numeric
string in the size cell makes the row processing — and with it the whole
upload — fail with an error result (handled, never a crash). -/
theorem rowAction_size_coercion (cols : List String) (cm : ColMap)
    (nameCol : String) (r : Row) (nv : Value)
    (hname : rowGet cols r nameCol none = some nv) :
    (rowGet cols r (cm.size.getD "") (some (.num 0)) = none →
      rowAction cols cm nameCol r = .ok (some (pyStr nv,
        { audienceSize := 0
          creationDate :=
            coerceDate (rowGet cols r (cm.creation.getD "") (some (.str "")))
          refreshDate :=
            coerceDate (rowGet cols r (cm.refresh.getD "") (some (.str ""))) }))) ∧
    (∀ s, rowGet cols r (cm.size.getD "") (some (.num 0)) = some (.str s) →
      parseIntStr s = none →
      rowAction cols cm nameCol r = .error (.parseFailure s)) := by
  constructor
  · intro hnull
    unfold rowAction
    rw [hname, hnull]
    rfl
  · intro s hstr hbad
    unfold rowAction
    rw [hname, hstr]
    simp [coerceSize, pyInt, hbad]

/-- Witness for C3 (amended) on concrete rows: a null size cell stores 0
and the non-numeric size cell "abc" yields the parse error. -/
theorem rowAction_size_coercion_witness :
    rowAction ["Name", "Size"] (buildColMap ["Name", "Size"]) "Name"
        [some (.str "A"), none]
      = .ok (some ("A", { audienceSize := 0, creationDate := "", refreshDate := "" })) ∧
    rowAction ["Name", "Size"] (buildColMap ["Name", "Size"]) "Name"
        [some (.str "A"), some (.str "abc")]
      = .error (.parseFailure "abc") := by
  constructor
  · have h := (rowAction_size_coercion ["Name", "Size"] (buildColMap ["Name", "Size"])
      "Name" [some (.str "A"), none] (.str "A") rfl).1 rfl
    rw [h]
    rfl
  · exact (rowAction_size_coercion ["Name", "Size"] (buildColMap ["Name", "Size"])
      "Name" [some (.str "A"), some (.str "abc")] (.str "A") rfl).2 "abc" rfl rfl

/-- Counterexample to claim C4: after uploading A then B and clicking Load This
Upload on the first entry, the display dictionary is the older snapshot
while the most recently appended history entry still holds B — the
claimed invariant fails at this reachable session state. -/
theorem display_inv_load_counterexample :
    ¬ dispInv (runOps initUser [.upload exDfA 0, .upload exDfB 1, .load 0]) := by
  unfold dispInv
  decide

/-- Claim C4 as amended: at every session state reachable using only upload
operations the display dictionary equals the most recently appended
history entry's snapshot (which `get_changes` always uses as the diff's
right-hand side); the Load This Upload operation passes the history
through unchanged but may point the display dictionary at an older
entry. -/
theorem display_inv_uploads (ops : List Op)
    (h : ∀ op ∈ ops, op.isLoad = false) :
    dispInv (runOps initUser ops) ∧
    ∀ s i, (stepLoad s i).uploadHistory = s.uploadHistory := by
  refine ⟨runOps_uploads_dispInv ops initUser h rfl, ?_⟩
  intro s i
  unfold stepLoad
  cases s.uploadHistory[i]? <;> rfl

/-- Witness for C4 (amended) on a concrete two-upload session. -/
theorem display_inv_uploads_witness :
    dispInv (runOps initUser [.upload exDfA 0, .upload exDfB 1]) ∧
    (stepLoad exUserState 0).uploadHistory = exUserState.uploadHistory := by
  have h := display_inv_uploads [.upload exDfA 0, .upload exDfB 1] (by decide)
  exact ⟨h.1, h.2 exUserState 0⟩

/-- Claim C5: when `process_excel` returns an error result, the upload branch
leaves the user's session state — in particular the history — exactly
as it was; the error is an ordinary return value of a total function,
so nothing escapes as a fatal exception. -/
theorem stepUpload_error_frame (s : UserState) (df : DataFrame) (t : Nat)
    (e : IngestError) (h : processExcel df = .error e) :
    stepUpload s df t = s := by
  unfold stepUpload
  rw [h]

/-- Witness for C5: a failing upload leaves a nonempty session state
untouched. -/
theorem stepUpload_error_frame_witness :
    stepUpload exUserState exDfNoName 5 = exUserState ∧
    processExcel exDfNoName = .error (.unresolvableSchema ["Foo", "Size"]) :=
  ⟨stepUpload_error_frame exUserState exDfNoName 5
      (.unresolvableSchema ["Foo", "Size"]) rfl, rfl⟩

/-- Claim C6: on an input whose name column resolves but in which every name
cell is null, `process_excel` extracts zero records and rejects the
upload with the empty-result error rather than returning a mapping. -/
theorem processExcel_allEmpty_emptyResult (df : DataFrame) (nameCol : String)
    (hname : (buildColMap (df.cols.map strTrim)).name = some nameCol)
    (hempty : ∀ r ∈ df.rows, rowGet (df.cols.map strTrim) r nameCol none = none) :
    processExcel df = .error .emptyResult := by
  simp only [processExcel, hname,
    foldRows_all_skipped (df.cols.map strTrim) (buildColMap (df.cols.map strTrim))
      nameCol df.rows hempty]
  rfl

/-- Witness for C6 on a two-row input with only null name cells. -/
theorem processExcel_allEmpty_witness :
    processExcel exDfAllEmpty = .error .emptyResult :=
  processExcel_allEmpty_emptyResult exDfAllEmpty "Name" (by decide) (by decide)

/-- Claim C7: when no header, after trimming, case-insensitively contains
"audience name" or (lowercased) equals "name", `process_excel` rejects
the upload with the unresolvable-schema error carrying the list of
(trimmed) columns that were found; being a total function it cannot
crash. -/
theorem processExcel_noNameCol_unresolvable (df : DataFrame)
    (hno : ∀ c ∈ df.cols.map strTrim, namePat c = false) :
    processExcel df = .error (.unresolvableSchema (df.cols.map strTrim)) := by
  simp only [processExcel, buildColMap_name_none _ hno]

/-- Witness for C7 on an input whose columns are Foo and Size. -/
theorem processExcel_noNameCol_witness :
    processExcel exDfNoName = .error (.unresolvableSchema ["Foo", "Size"]) := by
  exact processExcel_noNameCol_unresolvable exDfNoName (by decide)

/-- Claim C8: appending the same snapshot twice in a row — whatever the
earlier history and the entries' timestamps and counts — makes the
subsequent diff empty in both components. -/
theorem getChanges_append_same_twice (h : List Entry) (d : Dict)
    (t1 t2 c1 c2 : Nat) :
    getChanges (h ++ [{ data := d, timestamp := t1, count := c1 },
                      { data := d, timestamp := t2, count := c2 }]) = (∅, ∅) := by
  rw [getChanges_concat2]
  simp [Finset.sdiff_self]

/-- Claim C9: an operation performed in one user's session — an upload append
or a Load This Upload write — and the underlying `update_user_data`
write itself leave every other user's history and audience dict
unchanged. -/
theorem applyAsUser_frame (g : GlobalState) (u v : String) (hne : v ≠ u) :
    (∀ op, applyAsUser g u op v = g v) ∧
    (∀ hist dict, updateUserData g u hist dict v = g v) := by
  constructor
  · intro op
    simp [applyAsUser, updateUserData, hne]
  · intro hist dict
    simp [updateUserData, hne]

/-- Witness for C9: Alaa's upload does not touch Tom's data. -/
theorem applyAsUser_frame_witness :
    ("Tom" : String) ≠ "Alaa" ∧
    applyAsUser exGlobal "Alaa" (.upload exDfA 0) "Tom" = exGlobal "Tom" :=
  ⟨by decide, (applyAsUser_frame exGlobal "Alaa" "Tom" (by decide)).1 _⟩

/-- Claim C10: a row with a present name and a non-null numeric size value is
stored with audienceSize equal to the value truncated toward zero
(`ratTrunc`, Python `int()`), so fractional sizes lose their fraction
and negative values pass through unclamped. -/
theorem rowAction_numeric_trunc (cols : List String) (cm : ColMap)
    (nameCol : String) (r : Row) (nv : Value) (q : ℚ)
    (hname : rowGet cols r nameCol none = some nv)
    (hsize : rowGet cols r (cm.size.getD "") (some (.num 0)) = some (.num q)) :
    rowAction cols cm nameCol r = .ok (some (pyStr nv,
      { audienceSize := ratTrunc q
        creationDate :=
          coerceDate (rowGet cols r (cm.creation.getD "") (some (.str "")))
        refreshDate :=
          coerceDate (rowGet cols r (cm.refresh.getD "") (some (.str ""))) })) := by
  unfold rowAction
  rw [hname, hsize]
  rfl

/-- Witness for C10: size 3.9 is stored as 3 and size -5 as -5. -/
theorem rowAction_numeric_trunc_witness :
    rowAction ["Name", "Size"] (buildColMap ["Name", "Size"]) "Name" exRowFrac
      = .ok (some ("A", { audienceSize := 3, creationDate := "", refreshDate := "" })) ∧
    rowAction ["Name", "Size"] (buildColMap ["Name", "Size"]) "Name" exRowNeg
      = .ok (some ("B", { audienceSize := -5, creationDate := "", refreshDate := "" })) := by
  constructor
  · have h := rowAction_numeric_trunc ["Name", "Size"] (buildColMap ["Name", "Size"])
      "Name" exRowFrac (.str "A") (mkRat 39 10) rfl rfl
    rw [h]
    rfl
  · have h := rowAction_numeric_trunc ["Name", "Size"] (buildColMap ["Name", "Size"])
      "Name" exRowNeg (.str "B") (mkRat (-5) 1) rfl rfl
    rw [h]
    rfl

end AudienceTracker
